import Mathlib

/-!
Shallow embedding of the simulation core of `tokyo-rs` (`src/server/src/game.rs`).

Coordinates, angles and times are modelled as rationals. The `tokyo::models`
crate is not part of the sources; its small surface (the `PlayerState`,
`BulletState`, `DeadPlayer`, `GameConfig`, `GameState` records, the numeric
constants `PLAYER_RADIUS`, `BULLET_RADIUS`, `BULLET_SPEED`, `PLAYER_BASE_SPEED`,
and `PlayerState::new` / `PlayerState::randomize`) is reconstructed from its
uses in `game.rs` and from the spec, with the unknown numeric constants kept
abstract in a `Consts` record. Randomness (`ThreadRng`) is modelled as a stream
of positions indexed by a counter stored in the game, and the trigonometric
`angle_to_vector` as an abstract function supplied by an `Env` record, since no
verified property depends on the actual values of `cos`/`sin`. Wall-clock time
(`Instant::now()` / `SystemTime::now()`) is modelled by a single rational `now`
passed to each operation that samples the clock.
-/

namespace Tokyo

/-- Constants imported by `game.rs` from the `tokyo::models` crate.
Modelled from the spec: their numeric values are not in the sources, so they
are kept abstract; the spec only fixes that players and bullets use different
fixed radii and fixed speeds. -/
structure Consts where
  PLAYER_RADIUS : ℚ
  BULLET_RADIUS : ℚ
  BULLET_SPEED : ℚ
  PLAYER_BASE_SPEED : ℚ

/-- `const DEAD_PUNISH: Duration = Duration::from_secs(3)` (seconds). -/
def DEAD_PUNISH : ℚ := 3

/-- `const MAX_CONCURRENT_BULLETS: usize = 4`. -/
def MAX_CONCURRENT_BULLETS : ℕ := 4

/-- `const SURVIVAL_TIMEOUT: u64 = 10` (seconds until survival points accrue). -/
def SURVIVAL_TIMEOUT : ℚ := 10

/-- `const SURVIVAL_POINT_INTERVAL: u64 = 4` (seconds between survival points). -/
def SURVIVAL_POINT_INTERVAL : ℚ := 4

/-- `PlayerState` from `tokyo::models`: id, position, heading angle, throttle.
Field set reconstructed from its uses in `game.rs` and the spec's data model. -/
structure PlayerState where
  id : ℕ
  x : ℚ
  y : ℚ
  angle : ℚ
  throttle : ℚ
deriving DecidableEq, Repr

/-- `BulletState` from `tokyo::models`: id, owner id, heading angle, position. -/
structure BulletState where
  id : ℕ
  player_id : ℕ
  angle : ℚ
  x : ℚ
  y : ℚ
deriving DecidableEq, Repr

/-- `DeadPlayer`: a corpse, the saved player state plus its respawn time. -/
structure DeadPlayer where
  respawn : ℚ
  player : PlayerState
deriving DecidableEq, Repr

/-- `GameConfig`: the world bounds. -/
structure GameConfig where
  bound_x : ℚ
  bound_y : ℚ
deriving DecidableEq, Repr

/-- `GameState`: live players, in-flight bullets, corpses, and the scoreboard
(a `HashMap<u32, u32>`, modelled as a partial function). -/
structure GameState where
  players : List PlayerState
  bullets : List BulletState
  dead : List DeadPlayer
  scoreboard : ℕ → Option ℕ

/-- Environment supplying the effects `game.rs` draws from outside:
`angleToVector` models `fn angle_to_vector(angle) = (angle.cos(), angle.sin())`
(the trigonometric values are kept abstract), and `gen` models the stream of
positions produced by `ThreadRng` for successive `PlayerState::randomize`
calls. -/
structure Env where
  angleToVector : ℚ → ℚ × ℚ
  gen : ℕ → ℚ × ℚ

/-- Modelled from the spec: `PlayerState::new(id)` from the missing
`tokyo::models` crate creates a player with the given id; the spec fixes no
initial position, heading or throttle (the caller immediately randomizes the
position), so they start at zero. -/
def PlayerState.new (id : ℕ) : PlayerState :=
  { id := id, x := 0, y := 0, angle := 0, throttle := 0 }

/-- Modelled from the spec: `PlayerState::randomize(rng, bounds)` from the
missing `tokyo::models` crate sets the position to a random point; the point
drawn from the rng stream is passed in explicitly. -/
def PlayerState.randomize (p : PlayerState) (pos : ℚ × ℚ) : PlayerState :=
  { p with x := pos.1, y := pos.2 }

/-- The data of the `Triangle` trait: position, heading and radius. -/
structure Tri where
  x : ℚ
  y : ℚ
  angle : ℚ
  radius : ℚ
deriving DecidableEq, Repr

/-- `Triangle::is_colliding`: squared center distance strictly below the
squared sum of the radii. -/
def Tri.is_colliding (self other : Tri) : Bool :=
  let d_x := other.x - self.x
  let d_y := other.y - self.y
  let d_r := other.radius + self.radius
  let squared_dist := d_x * d_x + d_y * d_y
  let squared_radii := d_r * d_r
  decide (squared_dist < squared_radii)

/-- `impl Triangle for PlayerState` (radius `PLAYER_RADIUS`). -/
def PlayerState.tri (c : Consts) (p : PlayerState) : Tri :=
  { x := p.x, y := p.y, angle := p.angle, radius := c.PLAYER_RADIUS }

/-- `impl Triangle for BulletState` (radius `BULLET_RADIUS`). -/
def BulletState.tri (c : Consts) (b : BulletState) : Tri :=
  { x := b.x, y := b.y, angle := b.angle, radius := c.BULLET_RADIUS }

/-- The `Game` struct: config, state, the wrapping `u32` bullet id counter
(kept reduced modulo `2 ^ 32`), the survival-clock map, and the rng stream
position standing for `ThreadRng`'s internal state. -/
structure Game where
  config : GameConfig
  state : GameState
  bullet_id_counter : ℕ
  survival_times : ℕ → Option ℚ
  rngIdx : ℕ

/-- `GameState::new(bounds)`: empty world. -/
def GameState.new : GameState :=
  { players := [], bullets := [], dead := [], scoreboard := fun _ => none }

/-- `Game::new(config)`. -/
def Game.new (config : GameConfig) : Game :=
  { config := config, state := GameState.new, bullet_id_counter := 0,
    survival_times := fun _ => none, rngIdx := 0 }

/-- `Game::add_player(player_id)`: push a fresh randomized player and set its
survival clock to `now + SURVIVAL_TIMEOUT`. -/
def Game.add_player (g : Game) (env : Env) (now : ℚ) (player_id : ℕ) : Game :=
  let player := (PlayerState.new player_id).randomize (env.gen g.rngIdx)
  { g with
    state := { g.state with players := g.state.players ++ [player] },
    survival_times :=
      Function.update g.survival_times player_id (some (now + SURVIVAL_TIMEOUT)),
    rngIdx := g.rngIdx + 1 }

/-- `Game::reset()`: build a fresh game on the same config and re-add every
live player's id, then every corpse's id. -/
def Game.reset (g : Game) (env : Env) (now : ℚ) : Game :=
  let g1 := g.state.players.foldl (fun acc p => acc.add_player env now p.id)
    (Game.new g.config)
  g.state.dead.foldl (fun acc d => acc.add_player env now d.player.id) g1

/-- `Game::player_left(player_id)`: drop the first live player and the first
corpse with that id, and the survival-clock entry. -/
def Game.player_left (g : Game) (player_id : ℕ) : Game :=
  { g with
    state := { g.state with
      players := g.state.players.eraseP (fun p => p.id == player_id),
      dead := g.state.dead.eraseP (fun d => d.player.id == player_id) },
    survival_times := Function.update g.survival_times player_id none }

/-- `GameCommand` from `tokyo::models`. -/
inductive GameCommand where
  | Rotate (angle : ℚ)
  | Throttle (throttle : ℚ)
  | Fire
deriving DecidableEq, Repr

/-- Apply `f` to the first element satisfying `p`, the effect of mutating the
result of `iter_mut().find(..)` in place. -/
def modifyFirst (p : α → Bool) (f : α → α) : List α → List α
  | [] => []
  | a :: as => if p a then f a :: as else a :: modifyFirst p f as

/-- `Game::handle_cmd(player_id, cmd)`. -/
def Game.handle_cmd (g : Game) (env : Env) (player_id : ℕ)
    (cmd : GameCommand) : Game :=
  match g.state.players.find? (fun p => p.id == player_id) with
  | none => g
  | some player =>
    match cmd with
    | GameCommand.Rotate angle =>
      { g with state := { g.state with
          players := modifyFirst (fun p => p.id == player_id)
            (fun p => { p with angle := angle }) g.state.players } }
    | GameCommand.Throttle throttle =>
      let throttle := min (max throttle 0) 1
      { g with state := { g.state with
          players := modifyFirst (fun p => p.id == player_id)
            (fun p => { p with throttle := throttle }) g.state.players } }
    | GameCommand.Fire =>
      let active_bullets :=
        (g.state.bullets.filter (fun b => b.player_id == player.id)).length
      if active_bullets < MAX_CONCURRENT_BULLETS then
        let bullet_id := g.bullet_id_counter
        let distance_from_player : ℚ := 5
        let v := env.angleToVector player.angle
        { g with
          bullet_id_counter := (g.bullet_id_counter + 1) % 2 ^ 32,
          state := { g.state with
            bullets := g.state.bullets ++
              [{ id := bullet_id, player_id := player.id,
                 angle := player.angle,
                 x := player.x + v.1 * distance_from_player,
                 y := player.y + v.2 * distance_from_player }] } }
      else g

/-- Tick step 1 (revive the dead): corpses whose respawn time has come are
extracted from `dead` and their saved players appended to `players`. -/
def reviveStep (now : ℚ) (s : GameState) : GameState :=
  { s with
    players := s.players ++
      ((s.dead.filter (fun d => decide (d.respawn ≤ now))).map (fun d => d.player)),
    dead := s.dead.filter (fun d => !(decide (d.respawn ≤ now))) }

/-- Tick step 2 (advance bullets): each bullet moves along its heading at
`BULLET_SPEED`. -/
def moveBullets (c : Consts) (env : Env) (dt : ℚ)
    (bullets : List BulletState) : List BulletState :=
  bullets.map fun b =>
    let v := env.angleToVector b.angle
    { b with x := b.x + v.1 * c.BULLET_SPEED * dt,
             y := b.y + v.2 * c.BULLET_SPEED * dt }

/-- Tick step 3 (move players): each live player moves along its heading at
`PLAYER_BASE_SPEED * throttle`, then is clamped to
`[PLAYER_RADIUS, bound - PLAYER_RADIUS]` on each axis. -/
def movePlayers (c : Consts) (env : Env) (cfg : GameConfig) (dt : ℚ)
    (players : List PlayerState) : List PlayerState :=
  players.map fun p =>
    let v := env.angleToVector p.angle
    let x := p.x + v.1 * c.PLAYER_BASE_SPEED * p.throttle * dt
    let y := p.y + v.2 * c.PLAYER_BASE_SPEED * p.throttle * dt
    { p with
      x := min (max x c.PLAYER_RADIUS) (cfg.bound_x - c.PLAYER_RADIUS),
      y := min (max y c.PLAYER_RADIUS) (cfg.bound_y - c.PLAYER_RADIUS) }

/-- Tick step 4 (cull bullets): retain only bullets with
`BULLET_RADIUS < coord < bound + BULLET_RADIUS` on both axes. -/
def cullBullets (c : Consts) (cfg : GameConfig)
    (bullets : List BulletState) : List BulletState :=
  bullets.filter fun b =>
    decide (c.BULLET_RADIUS < b.x) && decide (b.x < cfg.bound_x + c.BULLET_RADIUS)
      && decide (c.BULLET_RADIUS < b.y)
      && decide (b.y < cfg.bound_y + c.BULLET_RADIUS)

/-- Tick step 5's `colliding_buf` for bullets: ids inserted when two bullets
with distinct ids overlap (both ids of each such ordered pair). -/
def bulletCollidingIds (c : Consts) (bullets : List BulletState) : List ℕ :=
  bullets.flatMap fun bullet =>
    bullets.flatMap fun other =>
      if bullet.id ≠ other.id ∧ (bullet.tri c).is_colliding (other.tri c)
      then [bullet.id, other.id] else []

/-- Tick step 5 (bullet-bullet collisions): drop every bullet whose id is in
the colliding buffer. -/
def bulletCollisionStep (c : Consts) (bullets : List BulletState) :
    List BulletState :=
  bullets.filter fun b => !((bulletCollidingIds c bullets).contains b.id)

/-- Tick step 6's `colliding_buf` for players. -/
def playerCollidingIds (c : Consts) (players : List PlayerState) : List ℕ :=
  players.flatMap fun player =>
    players.flatMap fun other =>
      if player.id ≠ other.id ∧ (player.tri c).is_colliding (other.tri c)
      then [player.id, other.id] else []

/-- Tick step 6 survivors: players whose id is not in the colliding buffer. -/
def playerCollisionSurvivors (c : Consts) (players : List PlayerState) :
    List PlayerState :=
  players.filter fun p => !((playerCollidingIds c players).contains p.id)

/-- Tick step 6 casualties: players extracted because their id is in the
colliding buffer. -/
def playerCollisionKilled (c : Consts) (players : List PlayerState) :
    List PlayerState :=
  players.filter fun p => (playerCollidingIds c players).contains p.id

/-- Corpses made from a list of freshly killed players: the i-th killed player
is randomized with the i-th upcoming rng draw and buried with respawn time
`now + DEAD_PUNISH`. -/
def makeCorpses (env : Env) (now : ℚ) : List PlayerState → ℕ → List DeadPlayer
  | [], _ => []
  | p :: ps, i =>
    { respawn := now + DEAD_PUNISH, player := p.randomize (env.gen i) } ::
      makeCorpses env now ps (i + 1)

/-- The player-vs-bullet hit predicate of tick step 7:
`player.is_colliding(bullet) && bullet.player_id != player.id`. -/
def hitBy (c : Consts) (b : BulletState) (p : PlayerState) : Bool :=
  (p.tri c).is_colliding (b.tri c) && !(b.player_id == p.id)

/-- Accumulator of tick step 7 (the per-bullet kill loop). -/
structure HitState where
  players : List PlayerState
  hits : List ℕ
  used_bullets : List ℕ
  dead : List DeadPlayer
  survival_times : ℕ → Option ℚ
  rngIdx : ℕ

/-- One iteration of tick step 7: extract every live player hit by this bullet;
record one hit (owner id) and one used-bullet mark per kill; reset each
victim's survival clock, randomize it and bury it. -/
def hitStep (c : Consts) (env : Env) (now : ℚ) (st : HitState)
    (b : BulletState) : HitState :=
  let deceased := st.players.filter (hitBy c b)
  { players := st.players.filter (fun p => !(hitBy c b p)),
    hits := st.hits ++ deceased.map (fun _ => b.player_id),
    used_bullets := st.used_bullets ++ deceased.map (fun _ => b.id),
    dead := st.dead ++ makeCorpses env now deceased st.rngIdx,
    survival_times := deceased.foldl
      (fun s p => Function.update s p.id (some (now + SURVIVAL_TIMEOUT)))
      st.survival_times,
    rngIdx := st.rngIdx + deceased.length }

/-- Scoreboard update from the tick's `hits` list: one increment per entry,
with a lazily created zero entry. -/
def scoreHits (hits : List ℕ) (sb : ℕ → Option ℕ) : ℕ → Option ℕ :=
  hits.foldl (fun sb pid => Function.update sb pid (some ((sb pid).getD 0 + 1))) sb

/-- Tick step 8 on the survival map: every elapsed clock is rescheduled to
`now + SURVIVAL_POINT_INTERVAL`. -/
def survivalStepTimes (now : ℚ) (survival : ℕ → Option ℚ) : ℕ → Option ℚ :=
  fun i =>
    match survival i with
    | some t => if t ≤ now then some (now + SURVIVAL_POINT_INTERVAL) else some t
    | none => none

/-- Tick step 8 on the scoreboard: every tracked id whose clock has elapsed is
awarded one point. -/
def survivalStepScores (now : ℚ) (survival : ℕ → Option ℚ)
    (sb : ℕ → Option ℕ) : ℕ → Option ℕ :=
  fun i =>
    match survival i with
    | some t => if t ≤ now then some ((sb i).getD 0 + 1) else sb i
    | none => sb i

/-- `Game::tick(dt)`, with the sampled wall clock passed in as `now`:
revive, advance bullets, move and clamp players, cull bullets, resolve
bullet-bullet and player-player collisions, resolve bullet hits, clear used
bullets, update the scoreboard from hits, then award survival bonuses. -/
def Game.tick (g : Game) (c : Consts) (env : Env) (now dt : ℚ) : Game :=
  let s := reviveStep now g.state
  let bullets1 := moveBullets c env dt s.bullets
  let players1 := movePlayers c env g.config dt s.players
  let bullets2 := cullBullets c g.config bullets1
  let bullets3 := bulletCollisionStep c bullets2
  let killed := playerCollisionKilled c players1
  let players2 := playerCollisionSurvivors c players1
  let dead2 := s.dead ++ makeCorpses env now killed g.rngIdx
  let h := bullets3.foldl (hitStep c env now)
    { players := players2, hits := [], used_bullets := [], dead := dead2,
      survival_times := g.survival_times, rngIdx := g.rngIdx + killed.length }
  let bullets4 := bullets3.filter (fun b => !(h.used_bullets.contains b.id))
  let sb1 := scoreHits h.hits s.scoreboard
  { g with
    state := { players := h.players, bullets := bullets4, dead := h.dead,
               scoreboard := survivalStepScores now h.survival_times sb1 },
    survival_times := survivalStepTimes now h.survival_times,
    rngIdx := h.rngIdx }

/-- An externally triggerable operation on the engine, with the wall-clock
instants it samples supplied explicitly. -/
inductive Op where
  | addPlayer (now : ℚ) (id : ℕ)
  | playerLeft (id : ℕ)
  | cmd (id : ℕ) (gc : GameCommand)
  | tickOp (now dt : ℚ)
  | resetOp (now : ℚ)

/-- Apply one operation. -/
def Game.applyOp (g : Game) (c : Consts) (env : Env) : Op → Game
  | Op.addPlayer now id => g.add_player env now id
  | Op.playerLeft id => g.player_left id
  | Op.cmd id gc => g.handle_cmd env id gc
  | Op.tickOp now dt => g.tick c env now dt
  | Op.resetOp now => g.reset env now

/-- Apply a sequence of operations. -/
def Game.run (g : Game) (c : Consts) (env : Env) (ops : List Op) : Game :=
  ops.foldl (fun acc op => acc.applyOp c env op) g

/-- The number of active bullets owned by `pid`, as counted by the Fire
handler. -/
def bulletCount (g : Game) (pid : ℕ) : ℕ :=
  (g.state.bullets.filter (fun b => b.player_id == pid)).length

/-- The players produced by re-adding a list of ids in order, starting at rng
stream position `k`: each id becomes a fresh player at the next random
position. -/
def freshPlayers (env : Env) : ℕ → List ℕ → List PlayerState
  | _, [] => []
  | k, id :: ids =>
    (PlayerState.new id).randomize (env.gen k) :: freshPlayers env (k + 1) ids

/-! Concrete instances used to witness the theorems below. -/

/-- Concrete constants: all radii and speeds 1. -/
def c0 : Consts := ⟨1, 1, 1, 1⟩

/-- Concrete environment: heading vectors all `(1, 0)`, rng draws `(50 + n, 50)`. -/
def env0 : Env := ⟨fun _ => (1, 0), fun n => (50 + n, 50)⟩

/-- A live player with id 1 at `(5, 5)`. -/
def pA : PlayerState := ⟨1, 5, 5, 0, 0⟩

/-- A live player with id 2 at `(6, 5)`, overlapping `pA`. -/
def pB : PlayerState := ⟨2, 6, 5, 0, 0⟩

/-- A game in a `100 × 100` world holding the two overlapping players, both
with survival clocks far in the future. -/
def g0 : Game :=
  { config := ⟨100, 100⟩,
    state := { players := [pA, pB], bullets := [], dead := [],
               scoreboard := fun _ => none },
    bullet_id_counter := 0,
    survival_times := fun i =>
      if i = 1 then some 100 else if i = 2 then some 100 else none,
    rngIdx := 0 }

/-- A bullet owned by player 2 sitting on top of `pA`. -/
def b0 : BulletState := ⟨0, 2, 0, 5, 5⟩

/-- A hit-loop accumulator holding just `pA`. -/
def hs0 : HitState := ⟨[pA], [], [], [], fun _ => none, 0⟩

/-- A game whose player 7 already owns four active bullets. -/
def gFire : Game :=
  { config := ⟨100, 100⟩,
    state := { players := [⟨7, 20, 20, 0, 0⟩],
               bullets := [⟨0, 7, 0, 10, 10⟩, ⟨1, 7, 0, 12, 10⟩,
                           ⟨2, 7, 0, 14, 10⟩, ⟨3, 7, 0, 16, 10⟩],
               dead := [], scoreboard := fun _ => none },
    bullet_id_counter := 4,
    survival_times := fun _ => none,
    rngIdx := 0 }

/-- A game whose only occupant is a corpse with id 3, its survival clock
already elapsed. -/
def gDead : Game :=
  { config := ⟨100, 100⟩,
    state := { players := [], bullets := [],
               dead := [⟨10, ⟨3, 40, 40, 0, 0⟩⟩],
               scoreboard := fun _ => none },
    bullet_id_counter := 0,
    survival_times := fun i => if i = 3 then some 0 else none,
    rngIdx := 0 }

/-- A game holding the single player `pA` and nothing else. -/
def gP : Game :=
  { config := ⟨100, 100⟩,
    state := { players := [pA], bullets := [], dead := [],
               scoreboard := fun _ => none },
    bullet_id_counter := 0,
    survival_times := fun _ => none,
    rngIdx := 0 }

/-- A bullet far beyond the left world edge. -/
def bOut : BulletState := ⟨5, 1, 0, -10, 50⟩

/-- The per-player bullet-cap invariant of the Fire handler. -/
def BulletCap (g : Game) : Prop :=
  ∀ pid, bulletCount g pid ≤ MAX_CONCURRENT_BULLETS

/-! ## Theorems -/

theorem hitStep_players_subset (c : Consts) (env : Env) (now : ℚ)
    (st : HitState) (b : BulletState) :
    (hitStep c env now st b).players ⊆ st.players := by
  simp only [hitStep]
  exact List.filter_subset' _

theorem hitLoop_players_subset (c : Consts) (env : Env) (now : ℚ) :
    ∀ (bs : List BulletState) (st : HitState),
      (bs.foldl (hitStep c env now) st).players ⊆ st.players := by
  intro bs
  induction bs with
  | nil => intro st; simp
  | cons b bs ih =>
    intro st
    simp only [List.foldl_cons]
    exact (ih (hitStep c env now st b)).trans (hitStep_players_subset c env now st b)

theorem hitLoop_dead_ext (c : Consts) (env : Env) (now : ℚ) :
    ∀ (bs : List BulletState) (st : HitState),
      ∃ ex, (bs.foldl (hitStep c env now) st).dead = st.dead ++ ex := by
  intro bs
  induction bs with
  | nil => intro st; exact ⟨[], by simp⟩
  | cons b bs ih =>
    intro st
    obtain ⟨ex, hex⟩ := ih (hitStep c env now st b)
    refine ⟨makeCorpses env now (st.players.filter (hitBy c b)) st.rngIdx ++ ex, ?_⟩
    rw [List.foldl_cons, hex]
    simp [hitStep, List.append_assoc]

theorem mem_cullBullets_iff (c : Consts) (cfg : GameConfig)
    (bs : List BulletState) (b : BulletState) :
    b ∈ cullBullets c cfg bs ↔ b ∈ bs ∧
      (c.BULLET_RADIUS < b.x ∧ b.x < cfg.bound_x + c.BULLET_RADIUS ∧
       c.BULLET_RADIUS < b.y ∧ b.y < cfg.bound_y + c.BULLET_RADIUS) := by
  simp [cullBullets, List.mem_filter, and_assoc]

theorem tick_bullets_subset_cull (c : Consts) (env : Env) (now dt : ℚ)
    (g : Game) :
    (g.tick c env now dt).state.bullets ⊆
      cullBullets c g.config (moveBullets c env dt g.state.bullets) := by
  intro b hb
  simp only [Game.tick, bulletCollisionStep, reviveStep] at hb
  exact (List.mem_filter.mp (List.mem_filter.mp hb).1).1

theorem tick_players_subset_move (c : Consts) (env : Env) (now dt : ℚ)
    (g : Game) :
    (g.tick c env now dt).state.players ⊆
      movePlayers c env g.config dt (reviveStep now g.state).players := by
  intro p hp
  simp only [Game.tick] at hp
  have h1 := hitLoop_players_subset c env now _ _ hp
  simp only [playerCollisionSurvivors] at h1
  exact List.filter_subset' _ h1

/-- C9: a command (Rotate, Throttle or Fire) whose player id is not among the
live players leaves the entire engine state unchanged. -/
theorem claim_C9 (env : Env) (g : Game) (pid : ℕ) (cmd : GameCommand)
    (h : ∀ p ∈ g.state.players, p.id ≠ pid) :
    g.handle_cmd env pid cmd = g := by
  have hnone : g.state.players.find? (fun p => p.id == pid) = none :=
    List.find?_eq_none.mpr (fun p hp => by simpa using h p hp)
  simp [Game.handle_cmd, hnone]

theorem claim_C9_witness : g0.handle_cmd env0 99 GameCommand.Fire = g0 :=
  claim_C9 env0 g0 99 GameCommand.Fire
    (by intro p hp; simp [g0, pA, pB] at hp; rcases hp with h | h <;> simp [h, pA, pB])

/-- C4: when the world bounds are at least twice the player radius, every live
player's position after a tick lies within the radius margin on both axes. -/
theorem claim_C4 (c : Consts) (env : Env) (now dt : ℚ) (g : Game)
    (hx : 2 * c.PLAYER_RADIUS ≤ g.config.bound_x)
    (hy : 2 * c.PLAYER_RADIUS ≤ g.config.bound_y) :
    ∀ p ∈ (g.tick c env now dt).state.players,
      c.PLAYER_RADIUS ≤ p.x ∧ p.x ≤ g.config.bound_x - c.PLAYER_RADIUS ∧
      c.PLAYER_RADIUS ≤ p.y ∧ p.y ≤ g.config.bound_y - c.PLAYER_RADIUS := by
  intro p hp
  have h1 := tick_players_subset_move c env now dt g hp
  simp only [movePlayers, List.mem_map] at h1
  obtain ⟨q, hq, rfl⟩ := h1
  refine ⟨?_, ?_, ?_, ?_⟩
  · exact le_min (le_max_right _ _) (by linarith)
  · exact min_le_right _ _
  · exact le_min (le_max_right _ _) (by linarith)
  · exact min_le_right _ _

theorem claim_C4_witness :
    c0.PLAYER_RADIUS ≤ pA.x ∧ pA.x ≤ gP.config.bound_x - c0.PLAYER_RADIUS ∧
    c0.PLAYER_RADIUS ≤ pA.y ∧ pA.y ≤ gP.config.bound_y - c0.PLAYER_RADIUS :=
  claim_C4 c0 env0 0 0 gP (by norm_num [c0, gP]) (by norm_num [c0, gP]) pA
    (by norm_num [gP, c0, env0, pA, Game.tick, reviveStep, moveBullets,
      movePlayers, cullBullets, bulletCollisionStep, bulletCollidingIds,
      playerCollisionSurvivors, playerCollisionKilled, playerCollidingIds,
      makeCorpses, hitStep, hitBy, Tri.is_colliding, PlayerState.tri,
      max_def, min_def])

/-- C1: every bullet still active after a tick lies strictly within one bullet
radius of the world bounds on both axes, and the culling step removes every
bullet outside that range. -/
theorem claim_C1 (c : Consts) (env : Env) (now dt : ℚ) (g : Game)
    (hr : 0 ≤ c.BULLET_RADIUS) :
    (∀ b ∈ (g.tick c env now dt).state.bullets,
        -c.BULLET_RADIUS < b.x ∧ b.x < g.config.bound_x + c.BULLET_RADIUS ∧
        -c.BULLET_RADIUS < b.y ∧ b.y < g.config.bound_y + c.BULLET_RADIUS) ∧
    (∀ (bs : List BulletState) (b : BulletState), b ∈ bs →
        ¬(-c.BULLET_RADIUS < b.x ∧ b.x < g.config.bound_x + c.BULLET_RADIUS ∧
          -c.BULLET_RADIUS < b.y ∧ b.y < g.config.bound_y + c.BULLET_RADIUS) →
        b ∉ cullBullets c g.config bs) := by
  constructor
  · intro b hb
    have h1 := tick_bullets_subset_cull c env now dt g hb
    have h2 := ((mem_cullBullets_iff c g.config _ b).mp h1).2
    exact ⟨by linarith [h2.1], h2.2.1, by linarith [h2.2.2.1], h2.2.2.2⟩
  · intro bs b hb hnot hmem
    have h2 := ((mem_cullBullets_iff c g.config bs b).mp hmem).2
    exact hnot ⟨by linarith [h2.1], h2.2.1, by linarith [h2.2.2.1], h2.2.2.2⟩

theorem claim_C1_witness : bOut ∉ cullBullets c0 g0.config [bOut] :=
  (claim_C1 c0 env0 0 0 g0 (by norm_num [c0])).2 [bOut] bOut (by simp)
    (by norm_num [bOut, c0, g0])

theorem bulletCount_moveBullets (c : Consts) (env : Env) (dt : ℚ) (pid : ℕ) :
    ∀ bs : List BulletState,
      ((moveBullets c env dt bs).filter (fun b => b.player_id == pid)).length
        = (bs.filter (fun b => b.player_id == pid)).length := by
  intro bs
  induction bs with
  | nil => rfl
  | cons b bs ih =>
    simp only [moveBullets, List.map_cons, List.filter_cons] at *
    cases h : (b.player_id == pid) <;> simp [h, ih]

theorem tick_bullets_sublist (c : Consts) (env : Env) (now dt : ℚ) (g : Game) :
    List.Sublist ((g.tick c env now dt).state.bullets)
      (moveBullets c env dt g.state.bullets) := by
  simp only [Game.tick, bulletCollisionStep, cullBullets, reviveStep]
  exact ((List.filter_sublist _).trans (List.filter_sublist _)).trans
    (List.filter_sublist _)

theorem bulletCount_tick_le (c : Consts) (env : Env) (now dt : ℚ) (g : Game)
    (pid : ℕ) :
    bulletCount (g.tick c env now dt) pid ≤ bulletCount g pid := by
  unfold bulletCount
  calc ((g.tick c env now dt).state.bullets.filter
          (fun b => b.player_id == pid)).length
      ≤ ((moveBullets c env dt g.state.bullets).filter
          (fun b => b.player_id == pid)).length :=
        (((tick_bullets_sublist c env now dt g).filter _)).length_le
    _ = (g.state.bullets.filter (fun b => b.player_id == pid)).length :=
        bulletCount_moveBullets c env dt pid g.state.bullets

theorem bulletCount_handle_cmd (env : Env) (g : Game) (pid : ℕ)
    (cmd : GameCommand) (i : ℕ) (hinv : bulletCount g i ≤ MAX_CONCURRENT_BULLETS) :
    bulletCount (g.handle_cmd env pid cmd) i ≤ MAX_CONCURRENT_BULLETS := by
  unfold Game.handle_cmd
  cases hfind : g.state.players.find? (fun p => p.id == pid) with
  | none => exact hinv
  | some player =>
    cases cmd with
    | Rotate a => simpa [bulletCount] using hinv
    | Throttle t => simpa [bulletCount] using hinv
    | Fire =>
      by_cases hlt : (g.state.bullets.filter
          (fun b => b.player_id == player.id)).length < MAX_CONCURRENT_BULLETS
      · simp only [if_pos hlt, bulletCount, List.filter_append,
          List.length_append]
        cases hi : (player.id == i) with
        | false => simpa [bulletCount, hi] using hinv
        | true =>
          have : player.id = i := by simpa using hi
          subst this
          simpa [bulletCount, List.filter, hi] using hlt
      · simpa [if_neg hlt, bulletCount] using hinv

theorem foldl_addPlayer_spec (env : Env) (now : ℚ) {α : Type} (f : α → ℕ) :
    ∀ (xs : List α) (g : Game),
      (xs.foldl (fun acc x => acc.add_player env now (f x)) g).config = g.config ∧
      (xs.foldl (fun acc x => acc.add_player env now (f x)) g).state.players
        = g.state.players ++ freshPlayers env g.rngIdx (xs.map f) ∧
      (xs.foldl (fun acc x => acc.add_player env now (f x)) g).state.bullets
        = g.state.bullets ∧
      (xs.foldl (fun acc x => acc.add_player env now (f x)) g).state.dead
        = g.state.dead ∧
      (xs.foldl (fun acc x => acc.add_player env now (f x)) g).state.scoreboard
        = g.state.scoreboard ∧
      (xs.foldl (fun acc x => acc.add_player env now (f x)) g).rngIdx
        = g.rngIdx + xs.length := by
  intro xs
  induction xs with
  | nil => intro g; simp [freshPlayers]
  | cons x xs ih =>
    intro g
    have h := ih (g.add_player env now (f x))
    simp only [List.foldl_cons, List.map_cons, List.length_cons]
    obtain ⟨h1, h2, h3, h4, h5, h6⟩ := h
    refine ⟨by rw [h1]; rfl, ?_, by rw [h3]; rfl, by rw [h4]; rfl,
      by rw [h5]; rfl, by rw [h6]; simp [Game.add_player]; omega⟩
    rw [h2]
    simp [Game.add_player, freshPlayers, List.append_assoc]

theorem freshPlayers_append (env : Env) :
    ∀ (ids1 ids2 : List ℕ) (k : ℕ),
      freshPlayers env k (ids1 ++ ids2)
        = freshPlayers env k ids1 ++ freshPlayers env (k + ids1.length) ids2 := by
  intro ids1
  induction ids1 with
  | nil => intro ids2 k; simp [freshPlayers]
  | cons i ids ih =>
    intro ids2 k
    simp only [List.cons_append, freshPlayers, List.length_cons, List.append_eq]
    rw [ih]
    have he : k + (ids.length + 1) = k + 1 + ids.length := by omega
    rw [he]

theorem freshPlayers_map_id (env : Env) :
    ∀ (ids : List ℕ) (k : ℕ),
      (freshPlayers env k ids).map (fun p => p.id) = ids := by
  intro ids
  induction ids with
  | nil => intro k; rfl
  | cons i ids ih =>
    intro k
    simp [freshPlayers, PlayerState.new, PlayerState.randomize, ih]

theorem reset_spec (env : Env) (now : ℚ) (g : Game) :
    (g.reset env now).state.players
      = freshPlayers env 0 (g.state.players.map (fun p => p.id)
          ++ g.state.dead.map (fun d => d.player.id)) ∧
    (g.reset env now).state.bullets = [] ∧
    (g.reset env now).state.dead = [] ∧
    (g.reset env now).state.scoreboard = (fun _ => none) ∧
    (g.reset env now).config = g.config := by
  unfold Game.reset
  have h1 := foldl_addPlayer_spec env now (fun p : PlayerState => p.id)
    g.state.players (Game.new g.config)
  have h2 := foldl_addPlayer_spec env now (fun d : DeadPlayer => d.player.id)
    g.state.dead
    (g.state.players.foldl (fun acc p => acc.add_player env now p.id)
      (Game.new g.config))
  obtain ⟨h11, h12, h13, h14, h15, h16⟩ := h1
  obtain ⟨h21, h22, h23, h24, h25, h26⟩ := h2
  refine ⟨?_, by rw [h23, h13]; rfl, by rw [h24, h14]; rfl,
    by rw [h25, h15]; rfl, by rw [h21, h11]; rfl⟩
  rw [h22, h12, h16]
  simp only [Game.new, GameState.new, List.nil_append]
  rw [freshPlayers_append]
  congr 2
  simp

theorem bulletCap_new (cfg : GameConfig) : BulletCap (Game.new cfg) := by
  intro pid
  simp [bulletCount, Game.new, GameState.new]

theorem bulletCap_applyOp (c : Consts) (env : Env) (op : Op) (g : Game)
    (h : BulletCap g) : BulletCap (g.applyOp c env op) := by
  cases op with
  | addPlayer now id =>
    intro pid; simpa [bulletCount, Game.applyOp, Game.add_player] using h pid
  | playerLeft id =>
    intro pid; simpa [bulletCount, Game.applyOp, Game.player_left] using h pid
  | cmd id gc =>
    intro pid; exact bulletCount_handle_cmd env g id gc pid (h pid)
  | tickOp now dt =>
    intro pid; exact (bulletCount_tick_le c env now dt g pid).trans (h pid)
  | resetOp now =>
    intro pid
    simp [bulletCount, Game.applyOp, (reset_spec env now g).2.1]

theorem bulletCap_run (c : Consts) (env : Env) :
    ∀ (ops : List Op) (g : Game), BulletCap g → BulletCap (g.run c env ops) := by
  intro ops
  induction ops with
  | nil => intro g h; exact h
  | cons op ops ih =>
    intro g h
    exact ih (g.applyOp c env op) (bulletCap_applyOp c env op g h)

/-- C5: starting from a fresh engine, no sequence of operations ever brings a
player's active-bullet count above 4, and a Fire command issued at the cap
leaves the game unchanged. -/
theorem claim_C5 (c : Consts) (env : Env) (cfg : GameConfig) :
    (∀ (ops : List Op) (pid : ℕ),
        bulletCount ((Game.new cfg).run c env ops) pid ≤ MAX_CONCURRENT_BULLETS) ∧
    (∀ (g : Game) (pid : ℕ), MAX_CONCURRENT_BULLETS ≤ bulletCount g pid →
        g.handle_cmd env pid GameCommand.Fire = g) := by
  constructor
  · intro ops pid
    exact bulletCap_run c env ops (Game.new cfg) (bulletCap_new cfg) pid
  · intro g pid hge
    unfold Game.handle_cmd
    cases hfind : g.state.players.find? (fun p => p.id == pid) with
    | none => rfl
    | some player =>
      have hid : player.id = pid := by simpa using List.find?_some hfind
      have : ¬ (g.state.bullets.filter
          (fun b => b.player_id == player.id)).length < MAX_CONCURRENT_BULLETS := by
        rw [hid]
        exact not_lt.mpr hge
      simp [this]

theorem claim_C5_witness : gFire.handle_cmd env0 7 GameCommand.Fire = gFire :=
  (claim_C5 c0 env0 ⟨100, 100⟩).2 gFire 7
    (by norm_num [bulletCount, gFire, MAX_CONCURRENT_BULLETS])

/-- C7: reset rebuilds exactly the previously live and dead ids (in that
order) as fresh live players at successive random positions, with empty
scoreboard, bullet set and corpse set. -/
theorem claim_C7 (env : Env) (now : ℚ) (g : Game) :
    (g.reset env now).state.players
      = freshPlayers env 0 (g.state.players.map (fun p => p.id)
          ++ g.state.dead.map (fun d => d.player.id)) ∧
    (g.reset env now).state.players.map (fun p => p.id)
      = g.state.players.map (fun p => p.id)
          ++ g.state.dead.map (fun d => d.player.id) ∧
    (g.reset env now).state.bullets = [] ∧
    (g.reset env now).state.dead = [] ∧
    (g.reset env now).state.scoreboard = (fun _ => none) := by
  obtain ⟨h1, h2, h3, h4, h5⟩ := reset_spec env now g
  exact ⟨h1, by rw [h1, freshPlayers_map_id], h2, h3, h4⟩

theorem hitLoop_dead_mem (c : Consts) (env : Env) (now : ℚ)
    (bs : List BulletState) (st : HitState) (d : DeadPlayer)
    (hd : d ∈ st.dead) : d ∈ (bs.foldl (hitStep c env now) st).dead := by
  obtain ⟨ex, hex⟩ := hitLoop_dead_ext c env now bs st
  rw [hex]
  exact List.mem_append_left _ hd

/-- C6: a player killed at time `now` is buried with respawn exactly
`now + 3`; the revive step moves exactly the corpses whose respawn time has
come back into the live set with their stored death-time state unchanged,
keeps the others, and a corpse whose respawn time has not yet come is still a
corpse after the whole tick. -/
theorem claim_C6 (c : Consts) (env : Env) (now dt : ℚ) (g : Game)
    (s : GameState) :
    DEAD_PUNISH = 3 ∧
    (∀ (killed : List PlayerState) (i : ℕ) (d : DeadPlayer),
        d ∈ makeCorpses env now killed i → d.respawn = now + DEAD_PUNISH) ∧
    (reviveStep now s).players
      = s.players ++ (s.dead.filter (fun d => decide (d.respawn ≤ now))).map
          (fun d => d.player) ∧
    (reviveStep now s).dead
      = s.dead.filter (fun d => !(decide (d.respawn ≤ now))) ∧
    (∀ d ∈ g.state.dead, now < d.respawn →
        d ∈ (g.tick c env now dt).state.dead) := by
  refine ⟨rfl, ?_, rfl, rfl, ?_⟩
  · intro killed
    induction killed with
    | nil => intro i d hd; simp [makeCorpses] at hd
    | cons p ps ih =>
      intro i d hd
      simp only [makeCorpses, List.mem_cons] at hd
      rcases hd with h | h
      · rw [h]
      · exact ih (i + 1) d h
  · intro d hd hlt
    simp only [Game.tick]
    refine hitLoop_dead_mem c env now _ _ d (List.mem_append_left _ ?_)
    simp only [reviveStep, List.mem_filter]
    exact ⟨hd, by simp [not_le.mpr hlt]⟩

theorem claim_C6_witness :
    (⟨10, ⟨3, 40, 40, 0, 0⟩⟩ : DeadPlayer) ∈ (gDead.tick c0 env0 5 0).state.dead :=
  (claim_C6 c0 env0 5 0 gDead gDead.state).2.2.2.2 ⟨10, ⟨3, 40, 40, 0, 0⟩⟩
    (by simp [gDead]) (by norm_num)

/-- C8: the circular-overlap test is symmetric and equal to the
squared-distance comparison, and the tick's collision steps treat overlap
mutually: an overlapping pair of distinct-id live players is killed on both
sides, and an overlapping pair of distinct-id bullets is removed on both
sides. -/
theorem claim_C8 (c : Consts) :
    (∀ a b : Tri, a.is_colliding b = b.is_colliding a) ∧
    (∀ a b : Tri, a.is_colliding b = true ↔
        (b.x - a.x) * (b.x - a.x) + (b.y - a.y) * (b.y - a.y)
          < (b.radius + a.radius) * (b.radius + a.radius)) ∧
    (∀ (ps : List PlayerState) (p q : PlayerState), p ∈ ps → q ∈ ps →
        p.id ≠ q.id → (p.tri c).is_colliding (q.tri c) = true →
        p ∈ playerCollisionKilled c ps ∧ q ∈ playerCollisionKilled c ps ∧
        p ∉ playerCollisionSurvivors c ps ∧ q ∉ playerCollisionSurvivors c ps) ∧
    (∀ (bs : List BulletState) (a b : BulletState), a ∈ bs → b ∈ bs →
        a.id ≠ b.id → (a.tri c).is_colliding (b.tri c) = true →
        a ∉ bulletCollisionStep c bs ∧ b ∉ bulletCollisionStep c bs) := by
  refine ⟨?_, ?_, ?_, ?_⟩
  · intro a b
    have l1 : (b.x - a.x) * (b.x - a.x) + (b.y - a.y) * (b.y - a.y)
        = (a.x - b.x) * (a.x - b.x) + (a.y - b.y) * (a.y - b.y) := by ring
    have l2 : (b.radius + a.radius) * (b.radius + a.radius)
        = (a.radius + b.radius) * (a.radius + b.radius) := by ring
    simp only [Tri.is_colliding, l1, l2]
  · intro a b
    simp [Tri.is_colliding]
  · intro ps p q hp hq hne hcol
    have hpid : p.id ∈ playerCollidingIds c ps := by
      simp only [playerCollidingIds, List.mem_flatMap]
      exact ⟨p, hp, ⟨q, hq, by simp [hne, hcol]⟩⟩
    have hqid : q.id ∈ playerCollidingIds c ps := by
      simp only [playerCollidingIds, List.mem_flatMap]
      exact ⟨p, hp, ⟨q, hq, by simp [hne, hcol]⟩⟩
    refine ⟨List.mem_filter.mpr ⟨hp, by simpa using hpid⟩,
      List.mem_filter.mpr ⟨hq, by simpa using hqid⟩, ?_, ?_⟩
    · intro hmem
      have h2 := (List.mem_filter.mp hmem).2
      simp only [playerCollisionSurvivors] at h2 ⊢
      simp at h2
      exact h2 hpid
    · intro hmem
      have h2 := (List.mem_filter.mp hmem).2
      simp at h2
      exact h2 hqid
  · intro bs a b ha hb hne hcol
    have haid : a.id ∈ bulletCollidingIds c bs := by
      simp only [bulletCollidingIds, List.mem_flatMap]
      exact ⟨a, ha, ⟨b, hb, by simp [hne, hcol]⟩⟩
    have hbid : b.id ∈ bulletCollidingIds c bs := by
      simp only [bulletCollidingIds, List.mem_flatMap]
      exact ⟨a, ha, ⟨b, hb, by simp [hne, hcol]⟩⟩
    constructor
    · intro hmem
      have h2 := (List.mem_filter.mp hmem).2
      simp at h2
      exact h2 haid
    · intro hmem
      have h2 := (List.mem_filter.mp hmem).2
      simp at h2
      exact h2 hbid

theorem claim_C8_witness :
    pA ∈ playerCollisionKilled c0 [pA, pB] ∧
    pB ∈ playerCollisionKilled c0 [pA, pB] ∧
    pA ∉ playerCollisionSurvivors c0 [pA, pB] ∧
    pB ∉ playerCollisionSurvivors c0 [pA, pB] :=
  (claim_C8 c0).2.2.1 [pA, pB] pA pB (by simp) (by simp)
    (by simp [pA, pB])
    (by norm_num [pA, pB, PlayerState.tri, Tri.is_colliding, c0])

theorem makeCorpses_respawn (env : Env) (now : ℚ) :
    ∀ (killed : List PlayerState) (i : ℕ) (d : DeadPlayer),
      d ∈ makeCorpses env now killed i → d.respawn = now + DEAD_PUNISH := by
  intro killed
  induction killed with
  | nil => intro i d hd; simp [makeCorpses] at hd
  | cons p ps ih =>
    intro i d hd
    simp only [makeCorpses, List.mem_cons] at hd
    rcases hd with h | h
    · rw [h]
    · exact ih (i + 1) d h

theorem foldl_update_const (v : Option ℚ) :
    ∀ (ps : List PlayerState) (s : ℕ → Option ℚ) (i : ℕ),
      (ps.foldl (fun (s2 : ℕ → Option ℚ) (p : PlayerState) =>
          Function.update s2 p.id v) s) i
        = if i ∈ ps.map (fun p => p.id) then v else s i := by
  intro ps
  induction ps with
  | nil => intro s i; simp
  | cons p ps ih =>
    intro s i
    simp only [List.foldl_cons, List.map_cons, List.mem_cons]
    rw [ih]
    by_cases hmem : i ∈ ps.map (fun p => p.id)
    · simp [hmem]
    · by_cases hip : i = p.id
      · simp [hmem, hip, Function.update_apply]
      · simp [hmem, hip, Function.update_apply]

theorem scoreHits_getD :
    ∀ (hits : List ℕ) (sb : ℕ → Option ℕ) (pid : ℕ),
      (scoreHits hits sb pid).getD 0 = (sb pid).getD 0 + hits.count pid := by
  intro hits
  induction hits with
  | nil => intro sb pid; simp [scoreHits]
  | cons h t ih =>
    intro sb pid
    simp only [scoreHits, List.foldl_cons] at ih ⊢
    rw [ih]
    by_cases hp : h = pid
    · subst hp
      simp [Function.update_apply, List.count_cons]
      omega
    · simp [Function.update_apply, hp, List.count_cons, Ne.symm hp]

/-- C3: in the bullet-hit step, every live player overlapping the bullet with
an id different from the bullet's owner is removed from the live set,
randomized and buried with respawn `now + 3`; one hit entry per kill credits
the owner one point each on the scoreboard; the bullet is marked used (hence
removed by the retain pass) once it kills; and the owner is never hit by its
own bullet. -/
theorem claim_C3 (c : Consts) (env : Env) (now : ℚ) (st : HitState)
    (b : BulletState) :
    ((hitStep c env now st b).players
        = st.players.filter (fun p => !(hitBy c b p))) ∧
    (∀ p ∈ st.players, (p.tri c).is_colliding (b.tri c) = true →
        b.player_id ≠ p.id → p ∉ (hitStep c env now st b).players) ∧
    ((hitStep c env now st b).dead
        = st.dead ++ makeCorpses env now (st.players.filter (hitBy c b))
            st.rngIdx) ∧
    (∀ d ∈ makeCorpses env now (st.players.filter (hitBy c b)) st.rngIdx,
        d.respawn = now + DEAD_PUNISH) ∧
    ((hitStep c env now st b).hits
        = st.hits ++ (st.players.filter (hitBy c b)).map
            (fun _ => b.player_id)) ∧
    (∀ (hits : List ℕ) (sb : ℕ → Option ℕ) (pid : ℕ),
        (scoreHits hits sb pid).getD 0 = (sb pid).getD 0 + hits.count pid) ∧
    (st.players.filter (hitBy c b) ≠ [] →
        b.id ∈ (hitStep c env now st b).used_bullets) ∧
    (∀ (bs : List BulletState) (used : List ℕ) (b2 : BulletState),
        b2.id ∈ used → b2 ∉ bs.filter (fun x => !(used.contains x.id))) ∧
    (∀ p ∈ st.players, p.id = b.player_id →
        p ∈ (hitStep c env now st b).players) := by
  refine ⟨rfl, ?_, rfl, makeCorpses_respawn env now _ _, rfl,
    scoreHits_getD, ?_, ?_, ?_⟩
  · intro p hp hcol hown hmem
    have hhit : hitBy c b p = true := by simp [hitBy, hcol, hown]
    have h2 := (List.mem_filter.mp hmem).2
    rw [hhit] at h2
    simp at h2
  · intro hne
    obtain ⟨p, hp⟩ := List.exists_mem_of_ne_nil _ hne
    simp only [hitStep]
    exact List.mem_append_right _ (List.mem_map.mpr ⟨p, hp, rfl⟩)
  · intro bs used b2 hid hmem
    have h2 := (List.mem_filter.mp hmem).2
    simp at h2
    exact h2 hid
  · intro p hp hown
    refine List.mem_filter.mpr ⟨hp, ?_⟩
    simp [hitBy, hown]

theorem claim_C3_witness : pA ∉ (hitStep c0 env0 0 hs0 b0).players :=
  (claim_C3 c0 env0 0 hs0 b0).2.1 pA (by simp [hs0])
    (by norm_num [PlayerState.tri, BulletState.tri, Tri.is_colliding, pA, b0, c0])
    (by simp [b0, pA])

/-- C2 as stated is false on the code: in a tick where two live players kill
each other by collision, both die but their survival clocks are left
untouched rather than reset to `now + 10`. Here player 1 dies at time 0 and
its clock stays at 100. -/
theorem claim_C2_cex :
    pA ∈ g0.state.players ∧ pA.id = 1 ∧
    (g0.tick c0 env0 0 0).state.dead.map (fun d => d.player.id) = [1, 2] ∧
    (g0.tick c0 env0 0 0).survival_times 1 = some 100 ∧
    some (100 : ℚ) ≠ some ((0 : ℚ) + SURVIVAL_TIMEOUT) := by
  refine ⟨by simp [g0], rfl, ?_, ?_, by norm_num [SURVIVAL_TIMEOUT]⟩ <;>
    norm_num [g0, c0, env0, Game.tick, reviveStep, moveBullets, movePlayers,
      cullBullets, bulletCollisionStep, bulletCollidingIds,
      playerCollisionSurvivors, playerCollisionKilled, playerCollidingIds,
      makeCorpses, hitStep, hitBy, scoreHits, survivalStepTimes,
      survivalStepScores, Tri.is_colliding, PlayerState.tri, BulletState.tri,
      pA, pB, PlayerState.randomize, DEAD_PUNISH, SURVIVAL_TIMEOUT,
      SURVIVAL_POINT_INTERVAL, max_def, min_def]

/-- C2 amended: the survival clock is set to `now + 10` on join and on death
by an opposing bullet; a player-player collision death leaves the clock
unchanged; and each granted bonus reschedules the clock to the granting
tick's time plus 4 seconds. -/
theorem claim_C2 (c : Consts) (env : Env) (now dt : ℚ) :
    SURVIVAL_TIMEOUT = 10 ∧
    SURVIVAL_POINT_INTERVAL = 4 ∧
    (∀ (g : Game) (pid : ℕ),
        (g.add_player env now pid).survival_times pid
          = some (now + SURVIVAL_TIMEOUT)) ∧
    (∀ (st : HitState) (b : BulletState), ∀ p ∈ st.players,
        hitBy c b p = true →
        (hitStep c env now st b).survival_times p.id
          = some (now + SURVIVAL_TIMEOUT)) ∧
    (∀ g : Game, g.state.bullets = [] →
        (g.tick c env now dt).survival_times
          = survivalStepTimes now g.survival_times) ∧
    (∀ (survival : ℕ → Option ℚ) (i : ℕ) (t : ℚ), survival i = some t →
        (t ≤ now → survivalStepTimes now survival i
            = some (now + SURVIVAL_POINT_INTERVAL)) ∧
        (¬ t ≤ now → survivalStepTimes now survival i = some t)) := by
  refine ⟨rfl, rfl, ?_, ?_, ?_, ?_⟩
  · intro g pid
    simp [Game.add_player, Function.update]
  · intro st b p hp hhit
    simp only [hitStep]
    rw [foldl_update_const]
    simp only [if_pos (List.mem_map.mpr ⟨p, List.mem_filter.mpr ⟨hp, hhit⟩, rfl⟩)]
  · intro g hb
    simp [Game.tick, reviveStep, hb, moveBullets, cullBullets,
      bulletCollisionStep, bulletCollidingIds]
  · intro survival i t hs
    constructor <;> intro h <;> simp [survivalStepTimes, hs, h]

theorem claim_C2_witness :
    (gDead.add_player env0 0 9).survival_times 9 = some (0 + SURVIVAL_TIMEOUT) ∧
    (hitStep c0 env0 0 hs0 b0).survival_times pA.id = some (0 + SURVIVAL_TIMEOUT) :=
  ⟨(claim_C2 c0 env0 0 0).2.2.1 gDead 9,
   (claim_C2 c0 env0 0 0).2.2.2.1 hs0 b0 pA (by simp [hs0])
     (by norm_num [hitBy, PlayerState.tri, BulletState.tri, Tri.is_colliding,
       pA, b0, c0])⟩

/-- C10: the survival-bonus pass of the tick awards a point to every tracked
id whose clock has elapsed, even when that id is currently a corpse and not a
live player. -/
theorem claim_C10 (c : Consts) (env : Env) (now dt : ℚ) (g : Game) (i : ℕ)
    (t : ℚ) (hb : g.state.bullets = [])
    (hs : g.survival_times i = some t) (ht : t ≤ now)
    (hdead : i ∈ g.state.dead.map (fun d => d.player.id))
    (hlive : i ∉ g.state.players.map (fun p => p.id)) :
    (g.tick c env now dt).state.scoreboard i
      = some ((g.state.scoreboard i).getD 0 + 1) := by
  simp [Game.tick, reviveStep, hb, moveBullets, cullBullets,
    bulletCollisionStep, bulletCollidingIds, scoreHits,
    survivalStepScores, hs, ht]

theorem claim_C10_witness :
    (gDead.tick c0 env0 5 0).state.scoreboard 3
      = some ((gDead.state.scoreboard 3).getD 0 + 1) :=
  claim_C10 c0 env0 5 0 gDead 3 0 rfl (by simp [gDead]) (by norm_num)
    (by simp [gDead]) (by simp [gDead])

end Tokyo
